import Mathlib

set_option maxRecDepth 4096

/- Verification of the pydmp DMP alarm-panel protocol library.
   Python strings are embedded as lists of characters, byte buffers as
   lists of naturals (one per byte), and each source function is
   translated into an executable Lean definition. -/

namespace Pydmp

/- Python strings are modelled as lists of characters. -/
abbrev Str := List Char

/- Python slice s[a:b] with 0 ≤ a ≤ b (the only form the source uses). -/
def pySlice (a b : Nat) (s : Str) : Str := (s.drop a).take (b - a)

/- Python s.split(sep) for a one-character separator: "".split(sep) is
   [""], and adjacent separators yield empty fragments. -/
def splitOnChar (sep : Char) : Str → List Str
  | [] => [[]]
  | c :: rest =>
    match splitOnChar sep rest with
    | [] => [[]]
    | h :: t => if c = sep then [] :: h :: t else (c :: h) :: t

/- Python s.find(pat): index of the first occurrence, as an Option
   instead of the -1 sentinel. -/
def findSub (pat : Str) : Str → Option Nat
  | [] => if pat = [] then some 0 else none
  | c :: rest =>
    if pat.isPrefixOf (c :: rest) then some 0
    else (findSub pat rest).map (· + 1)

/- Python `pat in s`. -/
def containsSub (pat s : Str) : Bool := (findSub pat s).isSome

/- Python whitespace recognised by str.strip(). -/
def isPySpace (c : Char) : Bool :=
  c = ' ' || c = '\t' || c = '\n' || c = '\r' || c = '\x0b' || c = '\x0c'

/- Python s.strip(). -/
def pyStrip (s : Str) : Str :=
  ((s.dropWhile isPySpace).reverse.dropWhile isPySpace).reverse

/- Python s.rstrip("\r"). -/
def rstripCR (s : Str) : Str :=
  (s.reverse.dropWhile (fun c => c = '\r')).reverse

/- Python s.rjust(n) (space fill). -/
def pyRjust (n : Nat) (s : Str) : Str :=
  if n ≤ s.length then s else List.replicate (n - s.length) ' ' ++ s

/- Python dict assignment d[k] = v on an insertion-ordered dict:
   overwrite in place when the key exists, otherwise append. -/
def dictInsert {α : Type} (k : Str) (v : α) : List (Str × α) → List (Str × α)
  | [] => [(k, v)]
  | (k2, v2) :: rest =>
    if k2 = k then (k, v) :: rest else (k2, v2) :: dictInsert k v rest

/- UTF-8 continuation byte. -/
def isCont (b : Nat) : Bool := 0x80 ≤ b && b < 0xC0

/- Valid second byte of a three-byte UTF-8 sequence with lead b. -/
def isSnd3 (b b2 : Nat) : Bool :=
  if b = 0xE0 then 0xA0 ≤ b2 && b2 < 0xC0
  else if b = 0xED then 0x80 ≤ b2 && b2 < 0xA0
  else isCont b2

/- Valid second byte of a four-byte UTF-8 sequence with lead b. -/
def isSnd4 (b b2 : Nat) : Bool :=
  if b = 0xF0 then 0x90 ≤ b2 && b2 < 0xC0
  else if b = 0xF4 then 0x80 ≤ b2 && b2 < 0x90
  else isCont b2

/- The U+FFFD replacement character. -/
def replChar : Char := Char.ofNat 0xFFFD

/- Python bytes.decode("utf-8", errors="replace"): total; every maximal
   ill-formed subsequence becomes one U+FFFD. -/
def utf8DecodeReplace : List Nat → Str
  | [] => []
  | b :: rest =>
    if b < 0x80 then Char.ofNat b :: utf8DecodeReplace rest
    else if 0xC2 ≤ b && b ≤ 0xDF then
      match rest with
      | [] => [replChar]
      | b2 :: rest2 =>
        if isCont b2 then
          Char.ofNat ((b - 0xC0) * 64 + (b2 - 0x80)) :: utf8DecodeReplace rest2
        else replChar :: utf8DecodeReplace (b2 :: rest2)
    else if 0xE0 ≤ b && b ≤ 0xEF then
      match rest with
      | [] => [replChar]
      | b2 :: rest2 =>
        if isSnd3 b b2 then
          match rest2 with
          | [] => [replChar]
          | b3 :: rest3 =>
            if isCont b3 then
              Char.ofNat ((b - 0xE0) * 4096 + (b2 - 0x80) * 64 + (b3 - 0x80))
                :: utf8DecodeReplace rest3
            else replChar :: utf8DecodeReplace (b3 :: rest3)
        else replChar :: utf8DecodeReplace (b2 :: rest2)
    else if 0xF0 ≤ b && b ≤ 0xF4 then
      match rest with
      | [] => [replChar]
      | b2 :: rest2 =>
        if isSnd4 b b2 then
          match rest2 with
          | [] => [replChar]
          | b3 :: rest3 =>
            if isCont b3 then
              match rest3 with
              | [] => [replChar]
              | b4 :: rest4 =>
                if isCont b4 then
                  Char.ofNat ((b - 0xF0) * 262144 + (b2 - 0x80) * 4096 +
                      (b3 - 0x80) * 64 + (b4 - 0x80)) :: utf8DecodeReplace rest4
                else replChar :: utf8DecodeReplace (b4 :: rest4)
            else replChar :: utf8DecodeReplace (b3 :: rest3)
        else replChar :: utf8DecodeReplace (b2 :: rest2)
    else replChar :: utf8DecodeReplace rest

/- Python bytes.decode("utf-8") with the default strict error handler:
   none models a raised UnicodeDecodeError. -/
def utf8DecodeStrict : List Nat → Option Str
  | [] => some []
  | b :: rest =>
    if b < 0x80 then (utf8DecodeStrict rest).map (Char.ofNat b :: ·)
    else if 0xC2 ≤ b && b ≤ 0xDF then
      match rest with
      | [] => none
      | b2 :: rest2 =>
        if isCont b2 then
          (utf8DecodeStrict rest2).map
            (Char.ofNat ((b - 0xC0) * 64 + (b2 - 0x80)) :: ·)
        else none
    else if 0xE0 ≤ b && b ≤ 0xEF then
      match rest with
      | b2 :: b3 :: rest3 =>
        if isSnd3 b b2 && isCont b3 then
          (utf8DecodeStrict rest3).map
            (Char.ofNat ((b - 0xE0) * 4096 + (b2 - 0x80) * 64 + (b3 - 0x80)) :: ·)
        else none
      | _ => none
    else if 0xF0 ≤ b && b ≤ 0xF4 then
      match rest with
      | b2 :: b3 :: b4 :: rest4 =>
        if isSnd4 b b2 && isCont b3 && isCont b4 then
          (utf8DecodeStrict rest4).map
            (Char.ofNat ((b - 0xF0) * 262144 + (b2 - 0x80) * 4096 +
                (b3 - 0x80) * 64 + (b4 - 0x80)) :: ·)
        else none
      | _ => none
    else none

/- bytes of an ASCII string (s.encode() in the source is only applied to
   ASCII frames). -/
def strBytes (s : Str) : List Nat := s.map (fun c => c.toNat)

/- Protocol constants from const: MESSAGE_TERMINATOR = "\r",
   MESSAGE_PREFIX = "@", RESPONSE_DELIMITER = "\x02",
   ZONE_DELIMITER = "\x1e". -/
def respDelim : Char := '\x02'

def zoneDelim : Char := '\x1e'

/- Area state characters accepted by _parse_status_line.
   Modelled from the spec: the constants AREA_STATUS_ARMED_AWAY /
   AREA_STATUS_DISARMED / AREA_STATUS_ARMED_STAY are imported from
   const.responses, whose definitions are outside the provided sources;
   spec §3 fixes the three area literals, and the source comments in
   protocol.py give them as A / D / S. -/
def areaStateChars : List Str := [['A'], ['D'], ['S']]

/- Zone state characters accepted by _parse_status_line.
   Modelled from the spec: ZONE_STATUS_NORMAL / OPEN / SHORT / BYPASSED /
   LOW_BATTERY / MISSING come from const.responses, outside the provided
   sources; spec §3 fixes six zone literals and the source comments in
   protocol.py give them as N / O / S / X / L / M. -/
def zoneStateChars : List Str := [['N'], ['O'], ['S'], ['X'], ['L'], ['M']]

/- protocol.AreaStatus. -/
structure AreaStatus where
  number : Str
  state : Str
  name : Str
deriving DecidableEq

/- protocol.ZoneStatus. -/
structure ZoneStatus where
  number : Str
  state : Str
  name : Str
deriving DecidableEq

/- protocol.StatusResponse: Python dicts become insertion-ordered
   association lists. -/
structure StatusResponse where
  areas : List (Str × AreaStatus)
  zones : List (Str × ZoneStatus)
deriving DecidableEq

/- protocol.UserCode. -/
structure UserCode where
  number : Str
  code : Str
  pin : Str
  profiles : Str × Str × Str × Str
  temp_date : Str
  exp_date : Str
  name : Str
deriving DecidableEq

/- protocol.UserCodesResponse. -/
structure UserCodesResponse where
  users : List UserCode
  has_more : Bool
  last_number : Option Str
deriving DecidableEq

/- protocol.UserProfile. -/
structure UserProfile where
  number : Str
  areas_mask : Str
  access_areas_mask : Str
  output_group : Str
  menu_options : Str
  rearm_delay : Str
  name : Str
deriving DecidableEq

/- protocol.UserProfilesResponse. -/
structure UserProfilesResponse where
  profiles : List UserProfile
  has_more : Bool
  last_number : Option Str
deriving DecidableEq

/- The dynamic return type of DMPProtocol.decode_response, as a tagged
   sum: "ACK" / "NAK" strings, a status object, a user page, or None. -/
inductive DecodeResult where
  | ack
  | nak
  | status (r : StatusResponse)
  | userCodes (r : UserCodesResponse)
  | userProfiles (r : UserProfilesResponse)
  | noData
deriving DecidableEq

/- One item of the per-item loop in DMPProtocol._parse_status_line
   (protocol.py lines 258-307). -/
def statusItemStep (resp : StatusResponse) (item : Str) : StatusResponse :=
  if item.length < 5 then resp
  else
    let itemType := pySlice 0 1 item
    if itemType = ['A'] then
      let number := pySlice 1 4 item
      let stateChar := pySlice 4 5 item
      let name := pyStrip (item.drop 5)
      let areaNum := pyStrip number
      if areaNum = [] then resp
      else
        let state := if stateChar ∈ areaStateChars then stateChar
                     else "unknown".toList
        { resp with
          areas := dictInsert areaNum ⟨areaNum, state, name⟩ resp.areas }
    else if itemType = ['L'] then
      let number := pySlice 1 4 item
      let stateChar := pySlice 4 5 item
      let name := pyStrip (item.drop 5)
      let state := if stateChar ∈ zoneStateChars then stateChar
                   else "unknown".toList
      { resp with
        zones := dictInsert number ⟨number, state, name⟩ resp.zones }
    else resp

/- DMPProtocol._parse_status_line (protocol.py lines 240-309), with the
   mutation of the response object made explicit state passing. -/
def parse_status_line (status_data : Str) (resp : StatusResponse) :
    StatusResponse :=
  if status_data = [] ∨ ['-', '\r'].isPrefixOf status_data then resp
  else (splitOnChar zoneDelim status_data).foldl statusItemStep resp

/- Accumulator of the loop in DMPProtocol._parse_user_codes_line. -/
structure UserCodesAcc where
  users : List UserCode
  has_more : Bool
  last_number : Option Str
deriving DecidableEq

/- One item of the loop in DMPProtocol._parse_user_codes_line
   (protocol.py lines 320-352); decrypt stands for
   self.crypto.decrypt_string, an external cipher contract (spec §4.1). -/
def userCodeStep (decrypt : Str → Str) (acc : UserCodesAcc) (item0 : Str) :
    UserCodesAcc :=
  let item := rstripCR item0
  if item = [] then acc
  else if ['-', '-', '-', '-'].isPrefixOf item then { acc with has_more := true }
  else
    let plain := decrypt item
    if plain.length < 44 then acc
    else
      let num := pySlice 0 4 plain
      let code := (pySlice 4 16 plain).takeWhile (fun c => c ≠ 'F')
      let pin := (pySlice 16 22 plain).takeWhile (fun c => c ≠ 'F')
      let p1 := pySlice 22 25 plain
      let p2 := pySlice 25 28 plain
      let p3 := pySlice 28 31 plain
      let p4 := pySlice 31 34 plain
      let temp := pySlice 34 40 plain
      let exp := pySlice 40 44 plain
      let name := plain.drop 44
      { users := acc.users ++ [⟨num, code, pin, (p1, p2, p3, p4), temp, exp, name⟩],
        has_more := acc.has_more,
        last_number := some num }

/- DMPProtocol._parse_user_codes_line (protocol.py lines 311-353) on the
   already-split item list. -/
def parseUserCodesItems (decrypt : Str → Str) (items : List Str) :
    UserCodesResponse :=
  let acc := items.foldl (userCodeStep decrypt) ⟨[], false, none⟩
  ⟨acc.users, acc.has_more, acc.last_number⟩

/- DMPProtocol._parse_user_codes_line on the raw data string. -/
def parse_user_codes_line (decrypt : Str → Str) (data : Str) :
    UserCodesResponse :=
  parseUserCodesItems decrypt (splitOnChar zoneDelim data)

/- Accumulator of the loop in DMPProtocol._parse_user_profiles_line. -/
structure UserProfilesAcc where
  profiles : List UserProfile
  has_more : Bool
  last_number : Option Str
deriving DecidableEq

/- One item of the loop in DMPProtocol._parse_user_profiles_line
   (protocol.py lines 361-388). -/
def userProfileStep (acc : UserProfilesAcc) (item0 : Str) : UserProfilesAcc :=
  let item := rstripCR item0
  if item = [] then acc
  else if ['-', '-', '-', '-'].isPrefixOf item then { acc with has_more := true }
  else
    let num := pySlice 0 3 item
    let areas := pySlice 3 11 item
    let accAreas := pySlice 11 19 item
    let outGrp := pySlice 19 22 item
    let menu := pySlice 22 30 item
    let rearm := if 49 ≤ item.length then pySlice 46 49 item else []
    let name := if 49 ≤ item.length then item.drop 49 else item.drop 30
    { profiles := acc.profiles ++ [⟨num, areas, accAreas, outGrp, menu, rearm, name⟩],
      has_more := acc.has_more,
      last_number := some num }

/- DMPProtocol._parse_user_profiles_line (protocol.py lines 355-389). -/
def parse_user_profiles_line (data : Str) : UserProfilesResponse :=
  let acc := (splitOnChar zoneDelim data).foldl userProfileStep ⟨[], false, none⟩
  ⟨acc.profiles, acc.has_more, acc.last_number⟩

/- line[6:7] if len(line) > 6 else "" (protocol.py line 191). -/
def ackCharOf (line : Str) : Str :=
  if 6 < line.length then pySlice 6 7 line else []

/- line[7:9] if len(line) > 8 else "" (protocol.py line 194). -/
def cmdCodeOf (line : Str) : Str :=
  if 8 < line.length then pySlice 7 9 line else []

/- len(cmd) == 2 and cmd[0] == "!" and cmd[1] in ["C","O","X","Y","Q"]
   (protocol.py line 202). -/
def isCtrlCmd : Str → Bool
  | ['!', c] => c = 'C' || c = 'O' || c = 'X' || c = 'Y' || c = 'Q'
  | _ => false

/- The marker loop of protocol.py lines 213-218: the position of the
   first marker of ("*WB", "!WB", "?WB") found in the line, trying the
   markers in that order. -/
def statusMarkerPos (line : Str) : Option Nat :=
  match findSub ['*', 'W', 'B'] line with
  | some p => some p
  | none =>
    match findSub ['!', 'W', 'B'] line with
    | some p => some p
    | none => findSub ['?', 'W', 'B'] line

/- protocol.py lines 219-222: on a marker hit with payload present,
   parse line[marker_pos+3:] into the accumulating status response. -/
def applyStatusMarker (line : Str) (resp : StatusResponse) (hasData : Bool) :
    StatusResponse × Bool :=
  match statusMarkerPos line with
  | some p =>
    if p + 3 < line.length then (parse_status_line (line.drop (p + 3)) resp, true)
    else (resp, hasData)
  | none => (resp, hasData)

/- One iteration of the frame loop of DMPProtocol.decode_response
   (protocol.py lines 181-230): inl is an immediate return, inr the
   updated (status_response, has_status_data) accumulator. -/
def decodeFrameStep (decrypt : Str → Str) (line : Str) (resp : StatusResponse)
    (hasData : Bool) : DecodeResult ⊕ (StatusResponse × Bool) :=
  if line = [] ∨ line.length < 8 then .inr (resp, hasData)
  else if cmdCodeOf line = ['!', 'V'] then .inr (resp, hasData)
  else if isCtrlCmd (cmdCodeOf line) ∧ ackCharOf line = ['+'] then .inl .ack
  else if isCtrlCmd (cmdCodeOf line) ∧ ackCharOf line = ['-'] then .inl .nak
  else
    let acc := applyStatusMarker line resp hasData
    match findSub ['*', 'P', '='] line with
    | some p => .inl (.userCodes (parse_user_codes_line decrypt (line.drop (p + 3))))
    | none =>
      match findSub ['*', 'U'] line with
      | some p => .inl (.userProfiles (parse_user_profiles_line (line.drop (p + 2))))
      | none => .inr acc

/- The frame loop of DMPProtocol.decode_response over the fragments of
   the buffer, with the fall-through of lines 232-235. -/
def decodeFrames (decrypt : Str → Str) : List Str → StatusResponse → Bool →
    DecodeResult
  | [], resp, hasData => if hasData then .status resp else .noData
  | line :: rest, resp, hasData =>
    match decodeFrameStep decrypt line resp hasData with
    | .inl r => r
    | .inr (resp2, hasData2) => decodeFrames decrypt rest resp2 hasData2

/- DMPProtocol.decode_response after the utf-8 step (protocol.py lines
   168-235): split on RESPONSE_DELIMITER and scan the fragments. -/
def decodeBody (decrypt : Str → Str) (decoded : Str) : DecodeResult :=
  decodeFrames decrypt (splitOnChar respDelim decoded) ⟨[], []⟩ false

/- DMPProtocol.decode_response (protocol.py lines 150-238): empty input
   returns None; the buffer is decoded with errors="replace" (line 168),
   which is total, so no path reaches the UnicodeDecodeError handler of
   line 237 and the function never raises. -/
def decode_response (decrypt : Str → Str) (response : List Nat) : DecodeResult :=
  if response = [] then .noData
  else decodeBody decrypt (utf8DecodeReplace response)

/- A template token of Python str.format: a literal character or a
   {name} replacement field. -/
inductive FmtTok where
  | lit (c : Char)
  | field (name : Str)
deriving DecidableEq

/- Tokenize a str.format template: "{{" and "}}" are brace escapes, a
   bare "}" or an unterminated "{" is a ValueError (none).  The first
   argument is some accumulated-name while scanning inside a
   replacement field and none outside of one. -/
def parseTmpl : Option Str → Str → Option (List FmtTok)
  | none, [] => some []
  | none, '{' :: '{' :: rest => (parseTmpl none rest).map (FmtTok.lit '{' :: ·)
  | none, '{' :: rest => parseTmpl (some []) rest
  | none, '}' :: '}' :: rest => (parseTmpl none rest).map (FmtTok.lit '}' :: ·)
  | none, '}' :: _ => none
  | none, c :: rest => (parseTmpl none rest).map (FmtTok.lit c :: ·)
  | some _, [] => none
  | some acc, '}' :: rest => (parseTmpl none rest).map (FmtTok.field acc :: ·)
  | some acc, c :: rest => parseTmpl (some (acc ++ [c])) rest

def parseTemplate (s : Str) : Option (List FmtTok) := parseTmpl none s

/- Substitute the supplied keyword arguments into the token list; a
   field whose name has no binding is a KeyError (none). -/
def renderToks (kwargs : List (Str × Str)) : List FmtTok → Option Str
  | [] => some []
  | FmtTok.lit c :: rest => (renderToks kwargs rest).map (c :: ·)
  | FmtTok.field name :: rest =>
    match kwargs.lookup name with
    | some v => (renderToks kwargs rest).map (v ++ ·)
    | none => none

/- Python command.format(**kwargs) for the templates the source uses
   (named fields, no conversions or format specs); none models the
   KeyError / ValueError that encode_command catches. -/
def pyFormat (template : Str) (kwargs : List (Str × Str)) : Option Str :=
  (parseTemplate template).bind (renderToks kwargs)

/- DMPProtocol.__init__ (protocol.py lines 100-118): right-justify the
   account to 5 characters; none models the ValueError raised when the
   result is longer than 5. -/
def protocolInit (account_number : Str) : Option Str :=
  let padded := pyRjust 5 account_number
  if padded.length = 5 then some padded else none

/- DMPProtocol.encode_command (protocol.py lines 120-148): substitute
   the parameters, build "@" + account + command + "\r"; none models
   the DMPProtocolError raised on a substitution failure. -/
def encode_command (account_number : Str) (command : Str)
    (kwargs : List (Str × Str)) : Option Str :=
  (pyFormat command kwargs).map
    (fun body => '@' :: account_number ++ body ++ ['\r'])

/- panel.py: the key of the process-wide active-connection set
   _ACTIVE_CONNECTIONS (line 21) is (host, port, account). -/
abbrev ConnKey := Str × Nat × Str

/- _ACTIVE_CONNECTIONS, a Python set of keys, as a duplicate-free list:
   set.add inserts when absent, set.discard removes. -/
def regAdd (key : ConnKey) (reg : List ConnKey) : List ConnKey :=
  if key ∈ reg then reg else key :: reg

def regDiscard (key : ConnKey) (reg : List ConnKey) : List ConnKey :=
  reg.filter (fun k => k ≠ key)

/- The per-DMPPanel state that DMPPanel.connect / disconnect touch:
   whether its DMPConnection is open. -/
structure PanelSt where
  connected : Bool
deriving DecidableEq

/- Outcome of DMPPanel.connect. -/
inductive ConnectOutcome where
  | alreadyConnected
  | duplicateErr
  | socketErr
  | updateErr
  | ok
deriving DecidableEq

/- Result of DMPPanel.connect: the registry and panel afterwards, the
   outcome, and whether a TCP open was attempted. -/
structure ConnectRet where
  reg : List ConnKey
  panel : PanelSt
  outcome : ConnectOutcome
  socketAttempted : Bool
deriving DecidableEq

/- DMPPanel.connect (panel.py lines 51-90).  sockOk stands for the
   success of DMPConnection.connect (the TCP open + handshake) and
   updOk for the success of the initial update_status call; both are
   environment oracles.  The guard of lines 69-74 raises
   DMPConnectionError before any socket is touched; the registration of
   line 80 happens only after the socket opened; an update_status
   failure triggers the disconnect + re-raise of lines 83-88. -/
def panelConnect (reg : List ConnKey) (p : PanelSt) (key : ConnKey)
    (sockOk updOk : Bool) : ConnectRet :=
  if p.connected then ⟨reg, p, .alreadyConnected, false⟩
  else if key ∈ reg then ⟨reg, p, .duplicateErr, false⟩
  else if !sockOk then ⟨reg, ⟨false⟩, .socketErr, true⟩
  else
    let reg2 := regAdd key reg
    if updOk then ⟨reg2, ⟨true⟩, .ok, true⟩
    else ⟨regDiscard key reg2, ⟨false⟩, .updateErr, true⟩

/- DMPPanel.disconnect (panel.py lines 92-109): a no-op when not
   connected, otherwise discard the registry key and close. -/
def panelDisconnect (reg : List ConnKey) (p : PanelSt) (key : ConnKey) :
    List ConnKey × PanelSt :=
  if !p.connected then (reg, p)
  else (regDiscard key reg, ⟨false⟩)

/- CommandQueue (queue.py): the worker coroutine's control point, one
   constructor per await region of _worker (lines 115-156). -/
inductive WorkerPt where
  | idle
  | processing (id : Nat)
  | atLoopCheck
  | exited
deriving DecidableEq

/- The progress of a stop() call (queue.py lines 51-70). -/
inductive StopPt where
  | notCalled
  | joining
  | returned
deriving DecidableEq

/- The observable state of one CommandQueue with its worker and one
   stop() caller: _running, the FIFO of accepted item ids, the ids whose
   result future was resolved (set_result or set_exception), the ids
   ever accepted by enqueue, and the asyncio.Queue unfinished-task count
   that _queue.join() waits on. -/
structure QSt where
  running : Bool
  fifo : List Nat
  resolved : List Nat
  accepted : List Nat
  unfinished : Nat
  worker : WorkerPt
  stopPhase : StopPt
deriving DecidableEq

/- The scheduler actions of the queue system, one per atomic region
   between await points:
   - enq: enqueue() past its running check puts an item and a fresh
     future (queue.py lines 93-110); disabled once _running is False
     because enqueue then raises before creating the future.
   - grab: the worker's wait_for(self._queue.get(), 1.0) returns an
     item (line 123).
   - timeoutChk: the same wait_for times out and the worker loops to
     the while check (lines 124-125).
   - finish: the worker resolves the item's future and calls
     task_done (lines 131-148).
   - loopCheck: the worker re-evaluates `while self._running`
     (line 119), exiting when it is False.
   - stopCall: stop() sets _running = False and starts awaiting
     _queue.join() (lines 56-59).
   - stopFinish: join() returns because unfinished = 0, stop() cancels
     the worker (delivered at its wait_for await) and returns
     (lines 59-70). -/
inductive QAct where
  | enq
  | grab
  | timeoutChk
  | finish
  | loopCheck
  | stopCall
  | stopFinish
deriving DecidableEq

/- The small-step semantics of the queue system: none when the action
   is not enabled in the given state. -/
def qStep (s : QSt) (a : QAct) : Option QSt :=
  match a with
  | .enq =>
    if s.running then
      some { s with
        fifo := s.fifo ++ [s.accepted.length],
        accepted := s.accepted ++ [s.accepted.length],
        unfinished := s.unfinished + 1 }
    else none
  | .grab =>
    match s.worker, s.fifo with
    | .idle, id :: rest => some { s with worker := .processing id, fifo := rest }
    | _, _ => none
  | .timeoutChk =>
    match s.worker with
    | .idle => some { s with worker := .atLoopCheck }
    | _ => none
  | .finish =>
    match s.worker with
    | .processing id =>
      some { s with
        worker := .atLoopCheck,
        resolved := s.resolved ++ [id],
        unfinished := s.unfinished - 1 }
    | _ => none
  | .loopCheck =>
    match s.worker with
    | .atLoopCheck =>
      some { s with worker := if s.running then .idle else .exited }
    | _ => none
  | .stopCall =>
    if s.stopPhase = .notCalled ∧ s.running then
      some { s with running := false, stopPhase := .joining }
    else none
  | .stopFinish =>
    if s.stopPhase = .joining ∧ s.unfinished = 0 then
      some { s with stopPhase := .returned, worker := .exited }
    else none

/- Run a list of scheduler actions from a state. -/
def qRun (s : QSt) : List QAct → Option QSt
  | [] => some s
  | a :: rest => (qStep s a).bind (fun s2 => qRun s2 rest)

/- The queue just after start(): _running True, worker at its
   wait_for(get) await, nothing queued. -/
def qInit : QSt :=
  ⟨true, [], [], [], 0, .idle, .notCalled⟩

/- A stand-in cipher used to instantiate the decrypt parameter on paths
   that never reach user-code decryption; the true cipher is an external
   contract (spec §4.1) and its choice is irrelevant to those paths. -/
def idDecrypt : Str → Str := fun s => s

/- The command characters of the control-command set (protocol.py
   line 202). -/
def ctrlChars : List Char := ['C', 'O', 'X', 'Y', 'Q']

/- A frame carrying a control command: six header characters (the "@"
   prefix and the 5-character account field), the acknowledgement
   character at offset 6, "!" and the command character at offsets 7-8,
   then arbitrary trailing content. -/
def ctrlFrame (h6 : Str) (a c : Char) (g : Str) : Str :=
  h6 ++ a :: '!' :: c :: g

/- Whether the frame loop of decode_response returns immediately on
   this fragment (same guards, in the same order, as decodeFrameStep). -/
def frameDetermines (line : Str) : Bool :=
  if line = [] ∨ line.length < 8 then false
  else if cmdCodeOf line = ['!', 'V'] then false
  else if isCtrlCmd (cmdCodeOf line) ∧ ackCharOf line = ['+'] then true
  else if isCtrlCmd (cmdCodeOf line) ∧ ackCharOf line = ['-'] then true
  else containsSub ['*', 'P', '='] line || containsSub ['*', 'U'] line

/- A fragment the frame loop passes over without changing any state:
   skipped outright, an auth/disconnect frame, or a frame with no
   status / user-codes / user-profiles marker that is not an
   acknowledged control command. -/
def frameInert (line : Str) : Bool :=
  decide (line = [] ∨ line.length < 8) ||
  decide (cmdCodeOf line = ['!', 'V']) ||
  (decide (statusMarkerPos line = none) &&
   !containsSub ['*', 'P', '='] line &&
   !containsSub ['*', 'U'] line &&
   !(isCtrlCmd (cmdCodeOf line) &&
     (decide (ackCharOf line = ['+']) || decide (ackCharOf line = ['-']))))

theorem ackCharOf_header (h6 : Str) (hl : h6.length = 6) (a : Char) (t : Str) :
    ackCharOf (h6 ++ a :: t) = [a] := by
  unfold ackCharOf
  rw [if_pos (by simp [hl])]
  unfold pySlice
  have hdrop : (h6 ++ a :: t).drop 6 = a :: t := by
    rw [← hl]
    exact List.drop_left h6 (a :: t)
  rw [hdrop]
  rfl

theorem cmdCodeOf_header (h6 : Str) (hl : h6.length = 6) (a b1 b2 : Char)
    (t : Str) : cmdCodeOf (h6 ++ a :: b1 :: b2 :: t) = [b1, b2] := by
  unfold cmdCodeOf
  rw [if_pos (by simp [hl]; omega)]
  unfold pySlice
  have hdrop : (h6 ++ a :: b1 :: b2 :: t).drop 7 = b1 :: b2 :: t := by
    have h7 : 7 = h6.length + 1 := by omega
    rw [h7, List.drop_append]
    rfl
  rw [hdrop]
  rfl

theorem ctrlFrame_not_short (h6 : Str) (hl : h6.length = 6) (a c : Char)
    (g : Str) : ¬(ctrlFrame h6 a c g = [] ∨ (ctrlFrame h6 a c g).length < 8) := by
  simp [ctrlFrame, hl]
  omega

theorem step_ctrl_acked (d : Str → Str) (resp : StatusResponse) (hD : Bool)
    (h6 : Str) (hl : h6.length = 6) (a c : Char) (g : Str)
    (hc : c ∈ ctrlChars) (ha : a = '+' ∨ a = '-') :
    decodeFrameStep d (ctrlFrame h6 a c g) resp hD =
      .inl (if a = '+' then DecodeResult.ack else DecodeResult.nak) := by
  have hcmd : cmdCodeOf (ctrlFrame h6 a c g) = ['!', c] :=
    cmdCodeOf_header h6 hl a '!' c g
  have hack : ackCharOf (ctrlFrame h6 a c g) = [a] :=
    ackCharOf_header h6 hl a ('!' :: c :: g)
  have hcV : c ≠ 'V' := by
    simp [ctrlChars] at hc
    rcases hc with rfl | rfl | rfl | rfl | rfl <;> decide
  have hV : ¬ cmdCodeOf (ctrlFrame h6 a c g) = ['!', 'V'] := by
    rw [hcmd]
    simp [hcV]
  have hCtrl : isCtrlCmd (cmdCodeOf (ctrlFrame h6 a c g)) = true := by
    rw [hcmd]
    simp [ctrlChars] at hc
    rcases hc with rfl | rfl | rfl | rfl | rfl <;> decide
  unfold decodeFrameStep
  rw [if_neg (ctrlFrame_not_short h6 hl a c g), if_neg hV]
  rcases ha with rfl | rfl
  · rw [if_pos ⟨hCtrl, by rw [hack]⟩]
    rfl
  · rw [if_neg (by rw [hack]; rintro ⟨-, h⟩; exact absurd h (by decide)),
      if_pos ⟨hCtrl, by rw [hack]⟩]
    rfl

theorem step_of_not_determines (line : Str) (h : frameDetermines line = false)
    (d : Str → Str) (resp : StatusResponse) (hD : Bool) :
    ∃ p, decodeFrameStep d line resp hD = .inr p := by
  unfold frameDetermines at h
  unfold decodeFrameStep
  split_ifs at h ⊢
  · exact ⟨_, rfl⟩
  · exact ⟨_, rfl⟩
  · simp only [Bool.or_eq_false_iff] at h
    obtain ⟨hp, hu⟩ := h
    unfold containsSub at hp hu
    have hp2 : findSub ['*', 'P', '='] line = none :=
      Option.not_isSome_iff_eq_none.mp (by simp [hp])
    have hu2 : findSub ['*', 'U'] line = none :=
      Option.not_isSome_iff_eq_none.mp (by simp [hu])
    rw [hp2, hu2]
    exact ⟨_, rfl⟩

theorem step_inert (line : Str) (h : frameInert line = true) (d : Str → Str)
    (resp : StatusResponse) (hD : Bool) :
    decodeFrameStep d line resp hD = .inr (resp, hD) := by
  unfold frameInert at h
  unfold decodeFrameStep
  by_cases h1 : line = [] ∨ line.length < 8
  · rw [if_pos h1]
  · rw [if_neg h1]
    by_cases h2 : cmdCodeOf line = ['!', 'V']
    · rw [if_pos h2]
    · rw [if_neg h2]
      simp only [h1, h2, decide_False, Bool.false_or, decide_eq_true_eq] at h
      obtain ⟨⟨⟨hm, hp⟩, hu⟩, hctrl⟩ := by
        simpa [Bool.and_eq_true, Bool.not_eq_true',
          Bool.or_eq_false_iff] using h
      have hnp : ¬(isCtrlCmd (cmdCodeOf line) ∧ ackCharOf line = ['+']) := by
        rintro ⟨hc1, hc2⟩
        rw [hc1, hc2] at hctrl
        simp at hctrl
      have hnm : ¬(isCtrlCmd (cmdCodeOf line) ∧ ackCharOf line = ['-']) := by
        rintro ⟨hc1, hc2⟩
        rw [hc1, hc2] at hctrl
        simp at hctrl
      rw [if_neg hnp, if_neg hnm]
      have hp2 : findSub ['*', 'P', '='] line = none :=
        Option.not_isSome_iff_eq_none.mp (by simp [containsSub] at hp; simp [hp])
      have hu2 : findSub ['*', 'U'] line = none :=
        Option.not_isSome_iff_eq_none.mp (by simp [containsSub] at hu; simp [hu])
      rw [hp2, hu2]
      simp only [applyStatusMarker, hm]

theorem decodeFrames_skip_front (d : Str → Str) :
    ∀ (pre : List Str), (∀ f ∈ pre, frameDetermines f = false) →
    ∀ (rest : List Str) (resp : StatusResponse) (hD : Bool),
    ∃ resp2 hD2, decodeFrames d (pre ++ rest) resp hD =
      decodeFrames d rest resp2 hD2 := by
  intro pre
  induction pre with
  | nil => exact fun _ rest resp hD => ⟨resp, hD, rfl⟩
  | cons f pre2 ih =>
    intro hall rest resp hD
    obtain ⟨p, hp⟩ :=
      step_of_not_determines f (hall f (by simp)) d resp hD
    obtain ⟨resp2, hD2, h2⟩ :=
      ih (fun f2 hf2 => hall f2 (by simp [hf2])) rest p.1 p.2
    exact ⟨resp2, hD2, by rw [List.cons_append, decodeFrames, hp]; exact h2⟩

theorem decodeFrames_all_inert (d : Str → Str) :
    ∀ (frames : List Str), (∀ f ∈ frames, frameInert f = true) →
    ∀ (resp : StatusResponse) (hD : Bool),
    decodeFrames d frames resp hD =
      if hD then DecodeResult.status resp else DecodeResult.noData := by
  intro frames
  induction frames with
  | nil => exact fun _ resp hD => rfl
  | cons f rest ih =>
    intro hall resp hD
    rw [decodeFrames, step_inert f (hall f (by simp)) d resp hD]
    exact ih (fun f2 hf2 => hall f2 (by simp [hf2])) resp hD

theorem statusMarkerPos_eq_none (line : Str)
    (h1 : containsSub ['*', 'W', 'B'] line = false)
    (h2 : containsSub ['!', 'W', 'B'] line = false)
    (h3 : containsSub ['?', 'W', 'B'] line = false) :
    statusMarkerPos line = none := by
  unfold containsSub at h1 h2 h3
  have e1 : findSub ['*', 'W', 'B'] line = none :=
    Option.not_isSome_iff_eq_none.mp (by simp [h1])
  have e2 : findSub ['!', 'W', 'B'] line = none :=
    Option.not_isSome_iff_eq_none.mp (by simp [h2])
  have e3 : findSub ['?', 'W', 'B'] line = none :=
    Option.not_isSome_iff_eq_none.mp (by simp [h3])
  unfold statusMarkerPos
  rw [e1, e2, e3]

theorem inert_of_marker_free (line : Str)
    (h1 : containsSub ['*', 'W', 'B'] line = false)
    (h2 : containsSub ['!', 'W', 'B'] line = false)
    (h3 : containsSub ['?', 'W', 'B'] line = false)
    (h4 : containsSub ['*', 'P', '='] line = false)
    (h5 : containsSub ['*', 'U'] line = false)
    (h6 : ¬(isCtrlCmd (cmdCodeOf line) = true ∧
        (ackCharOf line = ['+'] ∨ ackCharOf line = ['-']))) :
    frameInert line = true := by
  have hm : statusMarkerPos line = none := statusMarkerPos_eq_none line h1 h2 h3
  have hctrl : (isCtrlCmd (cmdCodeOf line) &&
      (decide (ackCharOf line = ['+']) || decide (ackCharOf line = ['-']))) =
        false := by
    by_cases hic : isCtrlCmd (cmdCodeOf line) = true
    · have hna : ¬(ackCharOf line = ['+'] ∨ ackCharOf line = ['-']) :=
        fun hor => h6 ⟨hic, hor⟩
      push_neg at hna
      simp [hic, hna.1, hna.2]
    · simp [Bool.not_eq_true] at hic
      simp [hic]
  simp [frameInert, hm, h4, h5, hctrl]

theorem step_status_marker (d : Str → Str) (line : Str)
    (resp : StatusResponse) (hD : Bool) (p : Nat)
    (hns : ¬(line = [] ∨ line.length < 8))
    (hV : ¬ cmdCodeOf line = ['!', 'V'])
    (hcp : ¬(isCtrlCmd (cmdCodeOf line) = true ∧ ackCharOf line = ['+']))
    (hcm : ¬(isCtrlCmd (cmdCodeOf line) = true ∧ ackCharOf line = ['-']))
    (hm : statusMarkerPos line = some p)
    (hlen : p + 3 < line.length)
    (h4 : containsSub ['*', 'P', '='] line = false)
    (h5 : containsSub ['*', 'U'] line = false) :
    decodeFrameStep d line resp hD =
      .inr (parse_status_line (line.drop (p + 3)) resp, true) := by
  unfold containsSub at h4 h5
  have hp2 : findSub ['*', 'P', '='] line = none :=
    Option.not_isSome_iff_eq_none.mp (by simp [h4])
  have hu2 : findSub ['*', 'U'] line = none :=
    Option.not_isSome_iff_eq_none.mp (by simp [h5])
  unfold decodeFrameStep
  rw [if_neg hns, if_neg hV, if_neg hcp, if_neg hcm, hp2, hu2]
  show Sum.inr (applyStatusMarker line resp hD) = _
  simp only [applyStatusMarker, hm]
  rw [if_pos hlen]

theorem applyStatusMarker_snd_true (line : Str) (resp : StatusResponse) :
    (applyStatusMarker line resp true).2 = true := by
  rcases hm : statusMarkerPos line with _ | p
  · simp [applyStatusMarker, hm]
  · simp only [applyStatusMarker, hm]
    split <;> rfl

theorem step_preserves_hasData (line : Str)
    (h : frameDetermines line = false) (d : Str → Str)
    (resp : StatusResponse) :
    ∃ resp2, decodeFrameStep d line resp true = .inr (resp2, true) := by
  unfold frameDetermines at h
  unfold decodeFrameStep
  split_ifs at h ⊢
  · exact ⟨resp, rfl⟩
  · exact ⟨resp, rfl⟩
  · simp only [Bool.or_eq_false_iff] at h
    obtain ⟨hp, hu⟩ := h
    unfold containsSub at hp hu
    have hp2 : findSub ['*', 'P', '='] line = none :=
      Option.not_isSome_iff_eq_none.mp (by simp [hp])
    have hu2 : findSub ['*', 'U'] line = none :=
      Option.not_isSome_iff_eq_none.mp (by simp [hu])
    rw [hp2, hu2]
    obtain ⟨r2, happ⟩ : ∃ r2, applyStatusMarker line resp true = (r2, true) :=
      ⟨(applyStatusMarker line resp true).1,
        Prod.ext rfl (applyStatusMarker_snd_true line resp)⟩
    refine ⟨r2, ?_⟩
    show Sum.inr (applyStatusMarker line resp true) = Sum.inr (r2, true)
    rw [happ]

theorem decodeFrames_nondet_status (d : Str → Str) :
    ∀ (frames : List Str), (∀ f ∈ frames, frameDetermines f = false) →
    ∀ (resp : StatusResponse),
    ∃ resp2, decodeFrames d frames resp true = DecodeResult.status resp2 := by
  intro frames
  induction frames with
  | nil => exact fun _ resp => ⟨resp, rfl⟩
  | cons f rest ih =>
    intro hall resp
    obtain ⟨r2, hstep⟩ := step_preserves_hasData f (hall f (by simp)) d resp
    obtain ⟨r3, h3⟩ := ih (fun g hg => hall g (by simp [hg])) r2
    exact ⟨r3, by rw [decodeFrames, hstep]; exact h3⟩

theorem lookupAppendSome {β : Type} (k : Str) (l1 l2 : List (Str × β))
    (v : β) (h : l1.lookup k = some v) : (l1 ++ l2).lookup k = some v := by
  induction l1 with
  | nil => simp [List.lookup] at h
  | cons p rest ih =>
    obtain ⟨a, b⟩ := p
    rw [List.cons_append]
    simp only [List.lookup] at h ⊢
    cases hbe : k == a with
    | true => rw [hbe] at h; exact h
    | false => rw [hbe] at h; exact ih h

theorem renderToksExtend (kwargs extra : List (Str × Str)) :
    ∀ (toks : List FmtTok) (s : Str), renderToks kwargs toks = some s →
    renderToks (kwargs ++ extra) toks = some s := by
  intro toks
  induction toks with
  | nil => exact fun s h => h
  | cons t rest ih =>
    intro s h
    cases t with
    | lit c =>
      simp only [renderToks] at h ⊢
      rcases Option.map_eq_some'.mp h with ⟨s2, hs2, rfl⟩
      rw [ih s2 hs2]
      rfl
    | field name =>
      simp only [renderToks] at h ⊢
      cases hlk : kwargs.lookup name with
      | none => rw [hlk] at h; simp at h
      | some v =>
        rw [hlk] at h
        rcases Option.map_eq_some'.mp h with ⟨s2, hs2, rfl⟩
        rw [lookupAppendSome name kwargs extra v hlk, ih s2 hs2]
        rfl

theorem regDiscard_fresh (key : ConnKey) (reg : List ConnKey)
    (hnot : key ∉ reg) : regDiscard key (key :: reg) = reg := by
  unfold regDiscard
  rw [List.filter_cons]
  simp only [decide_not]
  rw [if_neg (by simp)]
  apply List.filter_eq_self.mpr
  intro a ha
  have hne : a ≠ key := fun he => hnot (he ▸ ha)
  simp [hne]

/-- C1 counterexample: the claim says a buffer containing only *WA, *WQ,
or *WS status frames yields a StatusSnapshot rather than the no-data
result; decode_response only searches for the *WB / !WB / ?WB markers,
so each of these three buffers decodes to the no-data result (None). -/
theorem c1_wa_wq_ws_noData :
    decode_response idDecrypt
      (strBytes "\x02@    1+*WAA  1DArea 1\x1e-\r".toList) =
        DecodeResult.noData ∧
    decode_response idDecrypt
      (strBytes "\x02@    1+*WQA  1DArea 1\x1e-\r".toList) =
        DecodeResult.noData ∧
    decode_response idDecrypt
      (strBytes "\x02@    1+*WSA  1DArea 1\x1e-\r".toList) =
        DecodeResult.noData := by
  decide

/-- C1 amended: for every decoded byte buffer, the frame loop searches
each fragment only for the three zone-status markers *WB, !WB and ?WB:
(i) a fragment containing none of those three yields no marker match
regardless of any other content (in particular *WA/*WQ/*WS markers);
(ii) on a marker match in a fragment that is not skipped, not an
auth/disconnect frame and not an acknowledged control command,
everything after the 3-character marker is parsed as a status payload
and merged into the accumulating snapshot, and scanning continues;
(iii) every buffer all of whose fragments are free of the searched
markers (so in particular a buffer containing only *WA, *WQ or *WS
status frames) decodes to the no-data result; (iv) every buffer whose
fragments are non-determining except for a WB-family status frame with
a payload decodes to a StatusSnapshot rather than the no-data result;
(v) concretely, the three WB prefix forms of one frame each yield the
same one-area snapshot, while the *WA / *WQ / *WS forms yield the
no-data result. -/
theorem c1_wb_family_only :
    (∀ line : Str,
      containsSub ['*', 'W', 'B'] line = false →
      containsSub ['!', 'W', 'B'] line = false →
      containsSub ['?', 'W', 'B'] line = false →
      statusMarkerPos line = none) ∧
    (∀ (d : Str → Str) (line : Str) (resp : StatusResponse) (hD : Bool)
        (p : Nat),
      ¬(line = [] ∨ line.length < 8) →
      ¬ cmdCodeOf line = ['!', 'V'] →
      ¬(isCtrlCmd (cmdCodeOf line) = true ∧ ackCharOf line = ['+']) →
      ¬(isCtrlCmd (cmdCodeOf line) = true ∧ ackCharOf line = ['-']) →
      statusMarkerPos line = some p →
      p + 3 < line.length →
      containsSub ['*', 'P', '='] line = false →
      containsSub ['*', 'U'] line = false →
      decodeFrameStep d line resp hD =
        .inr (parse_status_line (line.drop (p + 3)) resp, true)) ∧
    (∀ (d : Str → Str) (bs : List Nat) (s : Str) (frames : List Str),
      bs ≠ [] →
      utf8DecodeReplace bs = s →
      splitOnChar respDelim s = frames →
      (∀ f ∈ frames,
        containsSub ['*', 'W', 'B'] f = false ∧
        containsSub ['!', 'W', 'B'] f = false ∧
        containsSub ['?', 'W', 'B'] f = false ∧
        containsSub ['*', 'P', '='] f = false ∧
        containsSub ['*', 'U'] f = false ∧
        ¬(isCtrlCmd (cmdCodeOf f) = true ∧
          (ackCharOf f = ['+'] ∨ ackCharOf f = ['-']))) →
      decode_response d bs = DecodeResult.noData) ∧
    (∀ (d : Str → Str) (bs : List Nat) (s : Str) (pre rest : List Str)
        (line : Str) (p : Nat),
      bs ≠ [] →
      utf8DecodeReplace bs = s →
      splitOnChar respDelim s = pre ++ line :: rest →
      (∀ f ∈ pre, frameDetermines f = false) →
      (∀ f ∈ rest, frameDetermines f = false) →
      ¬(line = [] ∨ line.length < 8) →
      ¬ cmdCodeOf line = ['!', 'V'] →
      ¬(isCtrlCmd (cmdCodeOf line) = true ∧ ackCharOf line = ['+']) →
      ¬(isCtrlCmd (cmdCodeOf line) = true ∧ ackCharOf line = ['-']) →
      statusMarkerPos line = some p →
      p + 3 < line.length →
      containsSub ['*', 'P', '='] line = false →
      containsSub ['*', 'U'] line = false →
      ∃ snap, decode_response d bs = DecodeResult.status snap) ∧
    ((decode_response idDecrypt
      (strBytes "\x02@    1+*WBA  1DArea 1\x1e-\r".toList) =
        DecodeResult.status ⟨[(['1'], ⟨['1'], ['D'], "Area 1".toList⟩)], []⟩ ∧
     decode_response idDecrypt
      (strBytes "\x02@    1+!WBA  1DArea 1\x1e-\r".toList) =
        DecodeResult.status ⟨[(['1'], ⟨['1'], ['D'], "Area 1".toList⟩)], []⟩ ∧
     decode_response idDecrypt
      (strBytes "\x02@    1+?WBA  1DArea 1\x1e-\r".toList) =
        DecodeResult.status ⟨[(['1'], ⟨['1'], ['D'], "Area 1".toList⟩)], []⟩) ∧
    (decode_response idDecrypt
      (strBytes "\x02@    1+*WAA  1DArea 1\x1e-\r".toList) =
        DecodeResult.noData ∧
     decode_response idDecrypt
      (strBytes "\x02@    1+*WQA  1DArea 1\x1e-\r".toList) =
        DecodeResult.noData ∧
     decode_response idDecrypt
      (strBytes "\x02@    1+*WSA  1DArea 1\x1e-\r".toList) =
        DecodeResult.noData)) := by
  refine ⟨statusMarkerPos_eq_none, step_status_marker, ?_, ?_, by decide⟩
  · intro d bs s frames hbs hdec hsplit hfree
    unfold decode_response
    rw [if_neg hbs, hdec]
    unfold decodeBody
    rw [hsplit, decodeFrames_all_inert d frames ?_ ⟨[], []⟩ false]
    · rfl
    · intro f hf
      obtain ⟨h1, h2, h3, h4, h5, h6⟩ := hfree f hf
      exact inert_of_marker_free f h1 h2 h3 h4 h5 h6
  · intro d bs s pre rest line p hbs hdec hsplit hpre hrest hns hV hcp hcm
      hm hlen h4 h5
    obtain ⟨resp2, hD2, heq⟩ :=
      decodeFrames_skip_front d pre hpre (line :: rest) ⟨[], []⟩ false
    obtain ⟨snap, hs⟩ := decodeFrames_nondet_status d rest hrest
      (parse_status_line (line.drop (p + 3)) resp2)
    refine ⟨snap, ?_⟩
    unfold decode_response
    rw [if_neg hbs, hdec]
    unfold decodeBody
    rw [hsplit, heq, decodeFrames,
      step_status_marker d line resp2 hD2 p hns hV hcp hcm hm hlen h4 h5]
    exact hs

/-- C1 witness: the universal parts instantiated concretely: a buffer
whose only status frame carries the *WA marker decodes to the no-data
result, and a buffer whose status frame carries the *WB marker (at
position 7, payload present) decodes to a StatusSnapshot. -/
theorem c1_witness :
    decode_response idDecrypt
      (strBytes "\x02@    1+*WAA  1DArea 1\x1e-\r".toList) =
        DecodeResult.noData ∧
    ∃ snap, decode_response idDecrypt
      (strBytes "\x02@    1+*WBA  1DArea 1\x1e-\r".toList) =
        DecodeResult.status snap :=
  ⟨c1_wb_family_only.2.2.1 idDecrypt
      (strBytes "\x02@    1+*WAA  1DArea 1\x1e-\r".toList)
      "\x02@    1+*WAA  1DArea 1\x1e-\r".toList
      [[], "@    1+*WAA  1DArea 1\x1e-\r".toList]
      (by decide) (by decide) (by decide) (by decide),
   c1_wb_family_only.2.2.2.1 idDecrypt
      (strBytes "\x02@    1+*WBA  1DArea 1\x1e-\r".toList)
      "\x02@    1+*WBA  1DArea 1\x1e-\r".toList
      [[]] [] "@    1+*WBA  1DArea 1\x1e-\r".toList 7
      (by decide) (by decide) (by decide) (by decide) (by decide)
      (by decide) (by decide) (by decide) (by decide) (by decide)
      (by decide) (by decide) (by decide)⟩

/-- C2: contrary to the claim (and to decode_response's own docstring),
no byte sequence raises the decode error: the byte 0xFF is not
interpretable as UTF-8 text (strict decoding fails), yet decode_response
decodes it with errors="replace", turning it into U+FFFD, and returns
the no-data result instead of raising DMPInvalidResponseError. -/
theorem c2_undecodable_bytes_do_not_raise :
    utf8DecodeStrict [0xFF] = none ∧
    decode_response idDecrypt [0xFF] = DecodeResult.noData := by
  decide

/-- C4: decoding the exact buffer
\x02@    1+!WBA  1DArea 1\x1eL001NFront\x1eL002OBack\x1e-\r
yields a snapshot with exactly one area (number "1", state 'D',
name "Area 1") and exactly two zones ("001" 'N' "Front" and
"002" 'O' "Back"). -/
theorem c4_end_to_end_decode :
    decode_response idDecrypt
      (strBytes "\x02@    1+!WBA  1DArea 1\x1eL001NFront\x1eL002OBack\x1e-\r".toList) =
      DecodeResult.status
        ⟨[(['1'], ⟨['1'], ['D'], "Area 1".toList⟩)],
         [("001".toList, ⟨"001".toList, ['N'], "Front".toList⟩),
          ("002".toList, ⟨"002".toList, ['O'], "Back".toList⟩)]⟩ := by
  decide

/-- C7: for every byte buffer whose decoded fragments start with
non-determining fragments followed by a control-command frame (any
6-character header, acknowledgement character at offset 6, "!" plus one
of C/O/X/Y/Q at offsets 7-8, arbitrary trailing garbage), the
acknowledgement character alone decides the result: '+' gives Ack and
'-' gives Nak, immediately on that first determining frame and
independently of the trailing garbage and of all later fragments. -/
theorem c7_ctrl_ack_nak (d : Str → Str) (bs : List Nat) (s : Str)
    (pre rest : List Str) (h6 : Str) (a c : Char) (g : Str)
    (hbs : bs ≠ [])
    (hdec : utf8DecodeReplace bs = s)
    (hsplit : splitOnChar respDelim s = pre ++ ctrlFrame h6 a c g :: rest)
    (hh6 : h6.length = 6)
    (hc : c ∈ ctrlChars)
    (ha : a = '+' ∨ a = '-')
    (hpre : ∀ f ∈ pre, frameDetermines f = false) :
    decode_response d bs =
      (if a = '+' then DecodeResult.ack else DecodeResult.nak) := by
  unfold decode_response
  rw [if_neg hbs, hdec]
  unfold decodeBody
  rw [hsplit]
  obtain ⟨resp2, hD2, heq⟩ :=
    decodeFrames_skip_front d pre hpre (ctrlFrame h6 a c g :: rest) ⟨[], []⟩ false
  rw [heq, decodeFrames, step_ctrl_acked d resp2 hD2 h6 hh6 a c g hc ha]

/-- C7 witness: a concrete buffer with an empty leading fragment, a '+'
acknowledged !C frame with trailing garbage, decoded to Ack. -/
theorem c7_witness :
    decode_response idDecrypt (strBytes "\x02@    1+!Cjunk\r".toList) =
      DecodeResult.ack := by
  have h := c7_ctrl_ack_nak idDecrypt
    (strBytes "\x02@    1+!Cjunk\r".toList) "\x02@    1+!Cjunk\r".toList
    [[]] [] "@    1".toList '+' 'C' "junk\r".toList
    (by decide) (by decide) (by decide) (by decide) (by decide)
    (Or.inl rfl) (by decide)
  simpa using h

/-- C9: a control-command frame whose acknowledgement character is
neither '+' nor '-' produces no Ack and no Nak: the frame loop passes
over it leaving the accumulator untouched, and a buffer all of whose
fragments are such pass-over fragments decodes to the no-data result
(None) without raising; a later status frame in the same buffer is
still parsed (scanning continues past the skipped frame). -/
theorem c9_ctrl_bad_ack_skipped (d : Str → Str) (bs : List Nat) (s : Str)
    (frames : List Str) (h6 : Str) (a c : Char) (g : Str)
    (resp : StatusResponse) (hD : Bool)
    (hbs : bs ≠ [])
    (hdec : utf8DecodeReplace bs = s)
    (hsplit : splitOnChar respDelim s = frames)
    (hh6 : h6.length = 6)
    (hc : c ∈ ctrlChars)
    (ha1 : a ≠ '+') (ha2 : a ≠ '-')
    (hmem : ctrlFrame h6 a c g ∈ frames)
    (hinert : ∀ f ∈ frames, frameInert f = true) :
    decodeFrameStep d (ctrlFrame h6 a c g) resp hD = .inr (resp, hD) ∧
    decode_response d bs = DecodeResult.noData ∧
    decode_response d
      (strBytes "\x02@    1X!C\r\x02@    1+!WBL001NFront\x1e-\r".toList) =
      DecodeResult.status ⟨[], [("001".toList, ⟨"001".toList, ['N'], "Front".toList⟩)]⟩ := by
  refine ⟨step_inert _ (hinert _ hmem) d resp hD, ?_, by rfl⟩
  unfold decode_response
  rw [if_neg hbs, hdec]
  unfold decodeBody
  rw [hsplit, decodeFrames_all_inert d frames hinert ⟨[], []⟩ false]
  rfl

/-- C9 witness: the frame "@    1X!C" with acknowledgement character
'X' is skipped and the buffer decodes to None. -/
theorem c9_witness :
    decodeFrameStep idDecrypt (ctrlFrame "@    1".toList 'X' 'C' ['\r'])
      ⟨[], []⟩ false = .inr (⟨[], []⟩, false) ∧
    decode_response idDecrypt (strBytes "\x02@    1X!C\r".toList) =
      DecodeResult.noData := by
  have h := c9_ctrl_bad_ack_skipped idDecrypt
    (strBytes "\x02@    1X!C\r".toList) "\x02@    1X!C\r".toList
    [[], "@    1X!C\r".toList] "@    1".toList 'X' 'C' ['\r'] ⟨[], []⟩ false
    (by decide) (by decide) (by decide) (by decide) (by decide)
    (by decide) (by decide) (by decide) (by decide)
  exact ⟨h.1, h.2.1⟩

/-- C5: the active-connection registry admits one connection per
(host, port, account): a first connect on a fresh identity succeeds and
registers the key; while the key is registered, a second connect of a
not-yet-connected panel fails with the duplicate connection error, with
no socket attempted and the registry unchanged, for every outcome of
the would-be socket open and status update; after the first panel
disconnects (which removes the key), a new connect for the same
identity succeeds again. -/
theorem c5_single_connection_per_identity (reg : List ConnKey)
    (key : ConnKey) (s u : Bool) (p2 : PanelSt)
    (hnot : key ∉ reg) (hp2 : p2.connected = false) :
    panelConnect reg ⟨false⟩ key true true =
      ⟨key :: reg, ⟨true⟩, .ok, true⟩ ∧
    panelConnect (key :: reg) p2 key s u =
      ⟨key :: reg, p2, .duplicateErr, false⟩ ∧
    panelDisconnect (key :: reg) ⟨true⟩ key = (reg, ⟨false⟩) ∧
    panelConnect (panelDisconnect (key :: reg) ⟨true⟩ key).1 ⟨false⟩ key
      true true = ⟨key :: reg, ⟨true⟩, .ok, true⟩ := by
  have hdisc : panelDisconnect (key :: reg) ⟨true⟩ key = (reg, ⟨false⟩) := by
    simp [panelDisconnect, regDiscard_fresh key reg hnot]
  refine ⟨?_, ?_, hdisc, ?_⟩
  · simp [panelConnect, regAdd, hnot]
  · simp [panelConnect, hp2]
  · rw [hdisc]
    simp [panelConnect, regAdd, hnot]

/-- C5 witness: concrete identity ("host", 2011, "12345") on an empty
registry, with a second panel whose socket open and status update
would both fail. -/
theorem c5_witness :
    panelConnect [] ⟨false⟩ ("host".toList, 2011, "12345".toList) true true =
      ⟨[("host".toList, 2011, "12345".toList)], ⟨true⟩, .ok, true⟩ ∧
    panelConnect [("host".toList, 2011, "12345".toList)] ⟨false⟩
      ("host".toList, 2011, "12345".toList) false false =
      ⟨[("host".toList, 2011, "12345".toList)], ⟨false⟩, .duplicateErr, false⟩ ∧
    panelDisconnect [("host".toList, 2011, "12345".toList)] ⟨true⟩
      ("host".toList, 2011, "12345".toList) = ([], ⟨false⟩) ∧
    panelConnect (panelDisconnect [("host".toList, 2011, "12345".toList)]
      ⟨true⟩ ("host".toList, 2011, "12345".toList)).1 ⟨false⟩
      ("host".toList, 2011, "12345".toList) true true =
      ⟨[("host".toList, 2011, "12345".toList)], ⟨true⟩, .ok, true⟩ :=
  c5_single_connection_per_identity [] ("host".toList, 2011, "12345".toList)
    false false ⟨false⟩ (by decide) (by decide)

/-- C6: a user-code page record whose decrypted form is shorter than 44
characters is dropped without error, and the page parses exactly as the
same page without that record: same emitted users, same has-more flag,
same last-number cursor. -/
theorem c6_short_record_dropped (decrypt : Str → Str) (data1 data2 : Str)
    (pre post : List Str) (bad : Str)
    (hs1 : splitOnChar zoneDelim data1 = pre ++ bad :: post)
    (hs2 : splitOnChar zoneDelim data2 = pre ++ post)
    (h1 : rstripCR bad ≠ [])
    (h2 : (['-', '-', '-', '-'] : Str).isPrefixOf (rstripCR bad) = false)
    (h3 : (decrypt (rstripCR bad)).length < 44) :
    parse_user_codes_line decrypt data1 = parse_user_codes_line decrypt data2 := by
  have hstep : ∀ acc, userCodeStep decrypt acc bad = acc := by
    intro acc
    unfold userCodeStep
    rw [if_neg h1, if_neg (by rw [h2]; exact Bool.false_ne_true), if_pos h3]
  unfold parse_user_codes_line parseUserCodesItems
  rw [hs1, hs2, List.foldl_append, List.foldl_append, List.foldl_cons, hstep]

/-- C6 witness: the page "----\x1eXYZ" (a has-more marker plus a record
whose decryption is 3 characters long) parses exactly as the page
"----". -/
theorem c6_witness :
    parse_user_codes_line idDecrypt "----\x1eXYZ".toList =
      parse_user_codes_line idDecrypt "----".toList :=
  c6_short_record_dropped idDecrypt "----\x1eXYZ".toList "----".toList
    ["----".toList] [] "XYZ".toList
    (by decide) (by decide) (by decide) (by decide) (by decide)

/-- C8: for an account of 1 to 5 characters and a command whose
required parameters are all supplied, the account field is exactly 5
characters, space-padded on the left, and the encoded frame is
"@" + account field + body + carriage return. -/
theorem c8_frame_shape (account command : Str) (kwargs : List (Str × Str))
    (body : Str)
    (h1 : 1 ≤ account.length) (h2 : account.length ≤ 5)
    (hfmt : pyFormat command kwargs = some body) :
    pyRjust 5 account = List.replicate (5 - account.length) ' ' ++ account ∧
    (pyRjust 5 account).length = 5 ∧
    protocolInit account = some (pyRjust 5 account) ∧
    encode_command (pyRjust 5 account) command kwargs =
      some ('@' :: (List.replicate (5 - account.length) ' ' ++ account) ++
        body ++ ['\r']) := by
  have hpad : pyRjust 5 account =
      List.replicate (5 - account.length) ' ' ++ account := by
    unfold pyRjust
    by_cases hle : 5 ≤ account.length
    · have h5 : account.length = 5 := le_antisymm h2 hle
      rw [if_pos hle, h5]
      simp
    · rw [if_neg hle]
  have hlen : (pyRjust 5 account).length = 5 := by
    rw [hpad]
    simp
    omega
  refine ⟨hpad, hlen, ?_, ?_⟩
  · simp [protocolInit, hlen]
  · unfold encode_command
    rw [hfmt, hpad]
    rfl

/-- C8 witness: account "1" with the parameterless disconnect command
"!V0" yields the frame "@    1!V0\r" with account field "    1". -/
theorem c8_witness :
    pyRjust 5 ['1'] = List.replicate 4 ' ' ++ ['1'] ∧
    (pyRjust 5 ['1']).length = 5 ∧
    protocolInit ['1'] = some (pyRjust 5 ['1']) ∧
    encode_command (pyRjust 5 ['1']) "!V0".toList [] =
      some ('@' :: (List.replicate 4 ' ' ++ ['1']) ++ "!V0".toList ++ ['\r']) :=
  c8_frame_shape ['1'] "!V0".toList [] "!V0".toList
    (by decide) (by decide) (by decide)

/-- C10: a supplied parameter whose placeholder does not occur in the
command template is silently ignored: if formatting succeeds on a
parameter map, appending any extra key/value pairs leaves both the
formatted body and the encoded frame unchanged, and raises no error. -/
theorem c10_extra_kwargs_ignored (account command : Str)
    (kwargs extra : List (Str × Str)) (body : Str)
    (hfmt : pyFormat command kwargs = some body) :
    pyFormat command (kwargs ++ extra) = some body ∧
    encode_command account command (kwargs ++ extra) =
      encode_command account command kwargs := by
  have hfmt2 : pyFormat command (kwargs ++ extra) = some body := by
    unfold pyFormat at hfmt ⊢
    rcases Option.bind_eq_some.mp hfmt with ⟨toks, htoks, hrender⟩
    rw [htoks]
    exact renderToksExtend kwargs extra toks body hrender
  refine ⟨hfmt2, ?_⟩
  unfold encode_command
  rw [hfmt, hfmt2]

/-- C10 witness: the bypass template "!X{zone}" with zone "001" plus the
extra pairs encrypt_user_code / user_code / instant that the command
queue forwards, encoding to the same bytes. -/
theorem c10_witness :
    pyFormat "!X{zone}".toList
      ([("zone".toList, "001".toList)] ++
        [("encrypt_user_code".toList, "True".toList),
         ("user_code".toList, "1234".toList),
         ("instant".toList, "N".toList)]) = some "!X001".toList ∧
    encode_command "    1".toList "!X{zone}".toList
      ([("zone".toList, "001".toList)] ++
        [("encrypt_user_code".toList, "True".toList),
         ("user_code".toList, "1234".toList),
         ("instant".toList, "N".toList)]) =
      encode_command "    1".toList "!X{zone}".toList
        [("zone".toList, "001".toList)] :=
  c10_extra_kwargs_ignored "    1".toList "!X{zone}".toList
    [("zone".toList, "001".toList)]
    [("encrypt_user_code".toList, "True".toList),
     ("user_code".toList, "1234".toList),
     ("instant".toList, "N".toList)]
    "!X001".toList (by decide)

/-- C3: contrary to the claim, stop() does not drain all queued items
and can leave an accepted item's future unresolved: with two items
enqueued, the worker grabs the first, stop() flips _running off and
starts join(), the worker finishes the first item and then exits its
while-loop because _running is already False.  The reached state has
item 1 still queued and its future unresolved, the worker terminated,
stop() blocked forever inside queue.join() (unfinished = 1 never
reaches 0), and no action of the system is enabled any more. -/
theorem c3_stop_strands_queued_item :
    qRun qInit [QAct.enq, QAct.enq, QAct.grab, QAct.stopCall, QAct.finish,
      QAct.loopCheck] =
      some ⟨false, [1], [0], [0, 1], 1, WorkerPt.exited, StopPt.joining⟩ ∧
    (1 ∈ (QSt.mk false [1] [0] [0, 1] 1 WorkerPt.exited StopPt.joining).accepted ∧
     1 ∉ (QSt.mk false [1] [0] [0, 1] 1 WorkerPt.exited StopPt.joining).resolved ∧
     (QSt.mk false [1] [0] [0, 1] 1 WorkerPt.exited StopPt.joining).stopPhase ≠
       StopPt.returned) ∧
    (∀ a : QAct,
      qStep ⟨false, [1], [0], [0, 1], 1, WorkerPt.exited, StopPt.joining⟩ a =
        none) := by
  refine ⟨by decide, by decide, ?_⟩
  intro a
  cases a <;> decide

end Pydmp
